import Mathlib

/-!
# MentalEngine camera / input-router / drawing-tool core: a shallow embedding

This file embeds the core of the MentalEngine repository in Lean 4 and proves
the properties its design note states about it.

* `source/Core/Math.h` / `Math.cpp` — `Vector2`, `Vector3`, `radians`;
  C++ `float` values are modelled as real numbers, `std::sqrt` as `Real.sqrt`,
  `std::sin`/`std::cos`/`std::asin` as `Real.sin`/`Real.cos`/`Real.arcsin`,
  and `std::atan2` as the piecewise function `atan2` below.
* `source/T1/Camera/Camera.cpp` — the `Camera` state and its operations.
* `source/T1/UserInterface/UserInterface.h` — the drawing-tool state
  (`HandleDrawingInput`, `HandleDrawingMouseMove`, the toolbox Clear All
  button) as `UIState`.
* `source/T1/WindowManager/WindowManager.h` — the mouse-button input-routing
  lambda installed by `__setup_input_callbacks`, as `routeMouseButton`.

GLFW's public constants are fixed by the GLFW headers:
`GLFW_RELEASE = 0`, `GLFW_PRESS = 1`, `GLFW_MOUSE_BUTTON_LEFT = 0`,
`GLFW_MOUSE_BUTTON_RIGHT = 1`, `GLFW_MOUSE_BUTTON_MIDDLE = 2`.
-/

namespace MentalEngine

open Real

/-! ## Core/Math.h -/

/-- `Math::Vector2`: a 2D float vector (floats modelled as reals). -/
@[ext] structure Vector2 where
  x : ℝ
  y : ℝ

namespace Vector2

/-- `Vector2::operator+`. -/
def add (a b : Vector2) : Vector2 := ⟨a.x + b.x, a.y + b.y⟩

/-- `Vector2::operator-`. -/
def sub (a b : Vector2) : Vector2 := ⟨a.x - b.x, a.y - b.y⟩

/-- `Vector2::operator*` (scalar). -/
def smul (a : Vector2) (s : ℝ) : Vector2 := ⟨a.x * s, a.y * s⟩

/-- `Vector2::operator/` (scalar). -/
noncomputable def divF (a : Vector2) (s : ℝ) : Vector2 := ⟨a.x / s, a.y / s⟩

/-- `Vector2::length`. -/
noncomputable def length (a : Vector2) : ℝ := Real.sqrt (a.x * a.x + a.y * a.y)

/-- `Vector2::normalized`: guards a zero length by returning the zero vector. -/
noncomputable def normalized (a : Vector2) : Vector2 :=
  if a.length = 0 then ⟨0, 0⟩ else a.divF a.length

/-- `Vector2::dot`. -/
def dot (a b : Vector2) : ℝ := a.x * b.x + a.y * b.y

end Vector2

/-- `Math::Vector3`: a 3D float vector (floats modelled as reals). -/
@[ext] structure Vector3 where
  x : ℝ
  y : ℝ
  z : ℝ

namespace Vector3

/-- `Vector3::operator+`. -/
def add (a b : Vector3) : Vector3 := ⟨a.x + b.x, a.y + b.y, a.z + b.z⟩

/-- `Vector3::operator-`. -/
def sub (a b : Vector3) : Vector3 := ⟨a.x - b.x, a.y - b.y, a.z - b.z⟩

/-- `Vector3::operator*` (scalar). -/
def smul (a : Vector3) (s : ℝ) : Vector3 := ⟨a.x * s, a.y * s, a.z * s⟩

/-- `Vector3::operator/` (scalar). -/
noncomputable def divF (a : Vector3) (s : ℝ) : Vector3 := ⟨a.x / s, a.y / s, a.z / s⟩

/-- `Vector3::length`. -/
noncomputable def length (a : Vector3) : ℝ :=
  Real.sqrt (a.x * a.x + a.y * a.y + a.z * a.z)

/-- `Vector3::normalized`: guards a zero length by returning the zero vector. -/
noncomputable def normalized (a : Vector3) : Vector3 :=
  if a.length = 0 then ⟨0, 0, 0⟩ else a.divF a.length

/-- `Vector3::dot`. -/
def dot (a b : Vector3) : ℝ := a.x * b.x + a.y * b.y + a.z * b.z

/-- `Vector3::cross`. -/
def cross (a b : Vector3) : Vector3 :=
  ⟨a.y * b.z - a.z * b.y, a.z * b.x - a.x * b.z, a.x * b.y - a.y * b.x⟩

end Vector3

/-- `Math::radians`: degrees to radians, `degrees * M_PI / 180`. -/
noncomputable def radians (degrees : ℝ) : ℝ := degrees * π / 180

/-- Model of C `std::atan2 y x`: the angle of the point `(x, y)` in `(-π, π]`,
following the cmath case split (`atan2(0, 0) = 0`). -/
noncomputable def atan2 (y x : ℝ) : ℝ :=
  if 0 < x then Real.arctan (y / x)
  else if x < 0 then
    (if 0 ≤ y then Real.arctan (y / x) + π else Real.arctan (y / x) - π)
  else if 0 < y then π / 2
  else if y < 0 then -(π / 2)
  else 0

/-! ## T1/Camera -/

/-- `CameraProjection` (Camera.h). -/
inductive CameraProjection where
  | Perspective
  | Orthographic
deriving DecidableEq

/-- The `Camera` class state: every data member of `Camera` (Camera.h). -/
structure Camera where
  position : Vector3
  target : Vector3
  up : Vector3
  projection : CameraProjection
  fov : ℝ
  aspect_ratio : ℝ
  near_plane : ℝ
  far_plane : ℝ
  ortho_size : ℝ
  is_rotating : Bool
  is_panning : Bool
  is_zooming : Bool
  is_ctrl_pressed : Bool
  last_mouse_pos : Vector2
  mouse_delta : Vector2
  orbit_distance : ℝ
  orbit_angle_x : ℝ
  orbit_angle_y : ℝ
  min_orbit_distance : ℝ
  max_orbit_distance : ℝ
  pan_speed : Vector3
  zoom_speed : ℝ
  zoom_factor : ℝ

namespace Camera

/-- `Camera::__update_orbit_position`: recompute `position` from the orbit
triple around `target`. -/
noncomputable def update_orbit_position (c : Camera) : Camera :=
  let cos_y := Real.cos c.orbit_angle_y
  { c with position :=
      ⟨c.target.x + c.orbit_distance * cos_y * Real.cos c.orbit_angle_x,
       c.target.y + c.orbit_distance * Real.sin c.orbit_angle_y,
       c.target.z + c.orbit_distance * cos_y * Real.sin c.orbit_angle_x⟩ }

/-- `Camera::__constrain_orbit_angles`: clamp `orbit_angle_y` to ±89° in
radians. -/
noncomputable def constrain_orbit_angles (c : Camera) : Camera :=
  { c with orbit_angle_y := max (-(radians 89)) (min (radians 89) c.orbit_angle_y) }

/-- `Camera::Camera()`: the member-initializer list, then
`__update_orbit_position()`. -/
noncomputable def init : Camera :=
  update_orbit_position
    { position := ⟨0, 0, 5⟩
      target := ⟨0, 0, 0⟩
      up := ⟨0, 1, 0⟩
      projection := CameraProjection.Perspective
      fov := 45
      aspect_ratio := 16 / 9
      near_plane := 0.1
      far_plane := 1000
      ortho_size := 10
      is_rotating := false
      is_panning := false
      is_zooming := false
      is_ctrl_pressed := false
      last_mouse_pos := ⟨0, 0⟩
      mouse_delta := ⟨0, 0⟩
      orbit_distance := 5
      orbit_angle_x := 0
      orbit_angle_y := 0
      min_orbit_distance := 0.1
      max_orbit_distance := 1000
      pan_speed := ⟨1, 1, 1⟩
      zoom_speed := 0.1
      zoom_factor := 1 }

/-- `Camera::SetProjection`. -/
def SetProjection (c : Camera) (proj : CameraProjection) : Camera :=
  { c with projection := proj }

/-- `Camera::SetFieldOfView`. -/
def SetFieldOfView (c : Camera) (fov_degrees : ℝ) : Camera :=
  { c with fov := fov_degrees }

/-- `Camera::SetOrthographicSize`. -/
def SetOrthographicSize (c : Camera) (size : ℝ) : Camera :=
  { c with ortho_size := size }

/-- `Camera::SetClippingPlanes`. -/
def SetClippingPlanes (c : Camera) (near far : ℝ) : Camera :=
  { c with near_plane := near, far_plane := far }

/-- `Camera::SetPosition`: store `pos`, then recompute the orbit triple from
`position - target`. -/
noncomputable def SetPosition (c : Camera) (pos : Vector3) : Camera :=
  let c1 := { c with position := pos }
  let direction := (c1.position.sub c1.target).normalized
  { c1 with
    orbit_distance := (c1.position.sub c1.target).length
    orbit_angle_y := Real.arcsin direction.y
    orbit_angle_x := atan2 direction.z direction.x }

/-- `Camera::SetTarget`. -/
noncomputable def SetTarget (c : Camera) (new_target : Vector3) : Camera :=
  update_orbit_position { c with target := new_target }

/-- `Camera::SetOrbitDistance`: clamp to `[min_orbit_distance,
max_orbit_distance]`, then recompute position. -/
noncomputable def SetOrbitDistance (c : Camera) (distance : ℝ) : Camera :=
  update_orbit_position
    { c with
      orbit_distance := max c.min_orbit_distance (min c.max_orbit_distance distance) }

/-- `Camera::SetOrbitAngles`: store the angles, constrain, recompute
position. -/
noncomputable def SetOrbitAngles (c : Camera) (angle_x angle_y : ℝ) : Camera :=
  update_orbit_position
    (constrain_orbit_angles { c with orbit_angle_x := angle_x, orbit_angle_y := angle_y })

/-- `Camera::Orbit`: increment the angles by `delta * 0.01`, constrain,
recompute position. -/
noncomputable def Orbit (c : Camera) (delta_x delta_y : ℝ) : Camera :=
  update_orbit_position
    (constrain_orbit_angles
      { c with
        orbit_angle_x := c.orbit_angle_x + delta_x * 0.01
        orbit_angle_y := c.orbit_angle_y + delta_y * 0.01 })

/-- `Camera::GetForward`. -/
noncomputable def GetForward (c : Camera) : Vector3 :=
  (c.target.sub c.position).normalized

/-- `Camera::GetRight`. -/
noncomputable def GetRight (c : Camera) : Vector3 :=
  (c.GetForward.cross c.up).normalized

/-- `Camera::GetUp`. -/
def GetUp (c : Camera) : Vector3 := c.up

/-- `Camera::Pan`: translate `position` and `target` by
`(right * dx + up * dy) * pan_speed.x * 0.01`. -/
noncomputable def Pan (c : Camera) (delta_x delta_y : ℝ) : Camera :=
  let pan_delta :=
    ((c.GetRight.smul delta_x).add (c.GetUp.smul delta_y)).smul (c.pan_speed.x * 0.01)
  { c with position := c.position.add pan_delta, target := c.target.add pan_delta }

/-- `Camera::MoveAlongAxes`: translate `position` and `target` by
`(right * dx + up * dy) * pan_speed.x * 0.01 + forward * dy * pan_speed.z * 0.005`. -/
noncomputable def MoveAlongAxes (c : Camera) (delta_x delta_y : ℝ) : Camera :=
  let move_delta :=
    ((c.GetRight.smul delta_x).add (c.GetUp.smul delta_y)).smul (c.pan_speed.x * 0.01)
  let forward_delta := c.GetForward.smul (delta_y * (c.pan_speed.z * 0.005))
  { c with
    position := (c.position.add move_delta).add forward_delta
    target := (c.target.add move_delta).add forward_delta }

/-- `Camera::Zoom`: in Perspective, scale `orbit_distance` by
`1 - delta * zoom_speed` and clamp; in Orthographic, scale `ortho_size` the
same way, floored at `0.1`. -/
noncomputable def Zoom (c : Camera) (delta : ℝ) : Camera :=
  if c.projection = CameraProjection.Perspective then
    update_orbit_position
      { c with
        orbit_distance := max c.min_orbit_distance
          (min c.max_orbit_distance (c.orbit_distance * (1 - delta * c.zoom_speed))) }
  else
    { c with ortho_size := max 0.1 (c.ortho_size * (1 - delta * c.zoom_speed)) }

/-- `Camera::SetZoomFactor`. -/
noncomputable def SetZoomFactor (c : Camera) (factor : ℝ) : Camera :=
  let c1 := { c with zoom_factor := factor }
  if c1.projection = CameraProjection.Orthographic then
    { c1 with ortho_size := 10 / factor }
  else c1

/-- `Camera::Reset`: restore position/target/up, the orbit triple, ortho size,
zoom factor and the Ctrl flag, then recompute position. -/
noncomputable def Reset (c : Camera) : Camera :=
  update_orbit_position
    { c with
      position := ⟨0, 0, 5⟩
      target := ⟨0, 0, 0⟩
      up := ⟨0, 1, 0⟩
      orbit_distance := 5
      orbit_angle_x := 0
      orbit_angle_y := 0
      ortho_size := 10
      zoom_factor := 1
      is_ctrl_pressed := false }

/-- `Camera::FitToBounds`: target the box centre, distance twice the largest
extent, ortho size the largest extent. -/
noncomputable def FitToBounds (c : Camera) (min_bounds max_bounds : Vector3) : Camera :=
  let center := ((min_bounds.add max_bounds).smul 0.5)
  let size := max_bounds.sub min_bounds
  let max_size := max size.x (max size.y size.z)
  update_orbit_position
    { c with target := center, orbit_distance := max_size * 2, ortho_size := max_size }

/-- `Camera::HandleMouseButton`: latch the gesture flag of the pressed or
released button; on a press record `last_mouse_pos`. Constants are GLFW's:
left = 0, right = 1, middle = 2, press = 1. -/
def HandleMouseButton (c : Camera) (button action : ℤ) (x y : ℝ) : Camera :=
  let c1 :=
    if button = 0 then { c with is_rotating := decide (action = 1) }
    else if button = 2 then { c with is_panning := decide (action = 1) }
    else if button = 1 then { c with is_zooming := decide (action = 1) }
    else c
  if action = 1 then { c1 with last_mouse_pos := ⟨x, y⟩ } else c1

end Camera

/-! ## T1/UserInterface: the drawing-tool state -/

/-- `ToolType` (UserInterface.h). -/
inductive ToolType where
  | None
  | Line
  | Rectangle
  | Circle
deriving DecidableEq

/-- The drawing-tool state of `UserInterface`: the tool members plus the
`mouse_over_viewport` flag read by the input router. -/
structure UIState where
  current_tool : ToolType
  is_drawing : Bool
  line_start : Vector2
  line_end : Vector2
  line_points : List Vector2
  mouse_over_viewport : Bool

namespace UIState

/-- `UserInterface::UserInterface`: default member initializers, then the
constructor body pushes the test segment `(-0.5, -0.5) – (0.5, 0.5)` onto
`line_points`. -/
def init : UIState :=
  { current_tool := ToolType.None
    is_drawing := false
    line_start := ⟨0, 0⟩
    line_end := ⟨0, 0⟩
    line_points := [⟨-0.5, -0.5⟩, ⟨0.5, 0.5⟩]
    mouse_over_viewport := false }

/-- `UserInterface::IsMouseOverViewport`. -/
def IsMouseOverViewport (s : UIState) : Bool := s.mouse_over_viewport

/-- `UserInterface::HandleDrawingInput`. `window` models the `pWindow`
pointer and, when present, the size `glfwGetWindowSize` reports. On a left
press: start drawing and, when the window size is positive, set both
`line_start` and `line_end` to the normalized cursor position. On a left
release: if drawing with the Line tool, append `line_start, line_end` to
`line_points`; stop drawing. The release coordinates are never read. -/
noncomputable def HandleDrawingInput (s : UIState) (window : Option (ℤ × ℤ))
    (button action : ℤ) (x y : ℝ) : UIState :=
  if s.current_tool = ToolType.None then s
  else if button = 0 then
    if action = 1 then
      let s1 := { s with is_drawing := true }
      match window with
      | some (w, h) =>
        if 0 < w ∧ 0 < h then
          let viewport_x := x / (w : ℝ) * 2 - 1
          let viewport_y := 1 - y / (h : ℝ) * 2
          { s1 with line_start := ⟨viewport_x, viewport_y⟩
                    line_end := ⟨viewport_x, viewport_y⟩ }
        else s1
      | none => s1
    else if action = 0 then
      let s1 :=
        if s.is_drawing ∧ s.current_tool = ToolType.Line then
          { s with line_points := s.line_points ++ [s.line_start, s.line_end] }
        else s
      { s1 with is_drawing := false }
    else s
  else s

/-- `UserInterface::HandleDrawingMouseMove`: while drawing with a tool active
and a positive window size, update `line_end` to the normalized cursor
position; otherwise change nothing. -/
noncomputable def HandleDrawingMouseMove (s : UIState) (window : Option (ℤ × ℤ))
    (x y : ℝ) : UIState :=
  if s.current_tool = ToolType.None ∨ ¬s.is_drawing then s
  else
    match window with
    | some (w, h) =>
      if 0 < w ∧ 0 < h then
        let viewport_x := x / (w : ℝ) * 2 - 1
        let viewport_y := 1 - y / (h : ℝ) * 2
        { s with line_end := ⟨viewport_x, viewport_y⟩ }
      else s
    | none => s

/-- The toolbox Clear All button (`UserInterface::Toolbox`):
`line_points.clear(); is_drawing = false`. -/
def ClearAll (s : UIState) : UIState :=
  { s with line_points := [], is_drawing := false }

end UIState

/-! ## T1/WindowManager: the mouse-button input router -/

/-- The outcome of one raw mouse-button event through the router lambda:
whether it was forwarded to ImGui, and the camera and UI states after it. -/
structure MouseButtonDispatch where
  gui_forwarded : Bool
  camera : Camera
  ui : UIState

/-- The mouse-button callback installed by
`WindowManager::__setup_input_callbacks`:
if ImGui wants mouse capture and the pointer is over the viewport, forward to
ImGui and deliver to both the camera and the drawing tool; if ImGui wants
capture but the pointer is elsewhere, forward to ImGui only; if ImGui does
not want capture, deliver to the camera only. -/
noncomputable def routeMouseButton (wantCaptureMouse : Bool)
    (window : Option (ℤ × ℤ)) (button action : ℤ) (x y : ℝ)
    (cam : Camera) (ui : UIState) : MouseButtonDispatch :=
  if wantCaptureMouse then
    if ui.IsMouseOverViewport then
      { gui_forwarded := true
        camera := cam.HandleMouseButton button action x y
        ui := ui.HandleDrawingInput window button action x y }
    else
      { gui_forwarded := true, camera := cam, ui := ui }
  else
    { gui_forwarded := false
      camera := cam.HandleMouseButton button action x y
      ui := ui }

/-! ## Theorems -/

/-- C10: immediately after construction of the user interface, before any
drawing input, the committed segment list is not empty: it holds exactly one
segment, from normalized point `(-0.5, -0.5)` to `(0.5, 0.5)`. -/
theorem c10_initial_committed_segment :
    UIState.init.line_points ≠ [] ∧
    UIState.init.line_points = [⟨-0.5, -0.5⟩, ⟨0.5, 0.5⟩] :=
  ⟨by simp [UIState.init], rfl⟩

/-- C7: `Pan(dx, dy)` translates `position` and `target` by the same vector
`(right * dx + up * dy) * panSpeed.x * 0.01` with
`right = normalize(cross(forward, up))`, `forward = normalize(target - position)`,
and leaves every other camera field (orbit triple included) unchanged. -/
theorem c7_pan_translates (c : Camera) (dx dy : ℝ) :
    c.Pan dx dy =
      { c with
        position := c.position.add
          ((((((c.target.sub c.position).normalized).cross c.up).normalized.smul dx).add
            (c.up.smul dy)).smul (c.pan_speed.x * 0.01))
        target := c.target.add
          ((((((c.target.sub c.position).normalized).cross c.up).normalized.smul dx).add
            (c.up.smul dy)).smul (c.pan_speed.x * 0.01)) } := rfl

/-- C3 counterexample: switch the camera to orthographic projection, then
`Reset()`: the projection field keeps `Orthographic`, while immediately after
construction it is `Perspective` — so `Reset` does not restore every field. -/
theorem c3_reset_keeps_projection :
    ((Camera.init.SetProjection CameraProjection.Orthographic).Reset).projection ≠
      Camera.init.projection := by
  simp [Camera.Reset, Camera.SetProjection, Camera.init, Camera.update_orbit_position]

/-- C3 (amended): `Reset()` restores `position`, `target`, `up`, the orbit
triple, the orthographic size, the zoom factor, and the Ctrl flag to their
construction-time values, but leaves the projection mode, fov, aspect ratio,
clipping planes, the rotate/pan/zoom gesture flags, the mouse positions, the
orbit-distance limits, and the speed parameters at their current values. -/
theorem c3_reset_restores_construction_defaults (c : Camera) :
    c.Reset.position = Camera.init.position ∧
    c.Reset.target = Camera.init.target ∧
    c.Reset.up = Camera.init.up ∧
    c.Reset.orbit_distance = Camera.init.orbit_distance ∧
    c.Reset.orbit_angle_x = Camera.init.orbit_angle_x ∧
    c.Reset.orbit_angle_y = Camera.init.orbit_angle_y ∧
    c.Reset.ortho_size = Camera.init.ortho_size ∧
    c.Reset.zoom_factor = Camera.init.zoom_factor ∧
    c.Reset.is_ctrl_pressed = Camera.init.is_ctrl_pressed ∧
    c.Reset.projection = c.projection ∧
    c.Reset.fov = c.fov ∧
    c.Reset.aspect_ratio = c.aspect_ratio ∧
    c.Reset.near_plane = c.near_plane ∧
    c.Reset.far_plane = c.far_plane ∧
    c.Reset.is_rotating = c.is_rotating ∧
    c.Reset.is_panning = c.is_panning ∧
    c.Reset.is_zooming = c.is_zooming ∧
    c.Reset.last_mouse_pos = c.last_mouse_pos ∧
    c.Reset.mouse_delta = c.mouse_delta ∧
    c.Reset.min_orbit_distance = c.min_orbit_distance ∧
    c.Reset.max_orbit_distance = c.max_orbit_distance ∧
    c.Reset.pan_speed = c.pan_speed ∧
    c.Reset.zoom_speed = c.zoom_speed :=
  ⟨rfl, rfl, rfl, rfl, rfl, rfl, rfl, rfl, rfl, rfl, rfl, rfl, rfl, rfl, rfl,
   rfl, rfl, rfl, rfl, rfl, rfl, rfl, rfl⟩

/-- C9: normalizing a zero-length `Vector2`/`Vector3` returns the zero
vector, and the division by the length in `normalized` — the only division
by a possibly-zero quantity in the vector operations — happens only under
the nonzero-length guard. -/
theorem c9_normalize_zero_guard :
    ((⟨0, 0⟩ : Vector2).normalized = ⟨0, 0⟩) ∧
    ((⟨0, 0, 0⟩ : Vector3).normalized = ⟨0, 0, 0⟩) ∧
    (∀ v : Vector2, v.length = 0 → v.normalized = ⟨0, 0⟩) ∧
    (∀ v : Vector3, v.length = 0 → v.normalized = ⟨0, 0, 0⟩) ∧
    (∀ v : Vector2, v.length ≠ 0 → v.normalized = v.divF v.length) ∧
    (∀ v : Vector3, v.length ≠ 0 → v.normalized = v.divF v.length) := by
  refine ⟨?_, ?_, fun v h => ?_, fun v h => ?_, fun v h => ?_, fun v h => ?_⟩ <;>
    simp_all [Vector2.normalized, Vector3.normalized, Vector2.length, Vector3.length]

/-- C9 witness: the guard taken on the zero vector, and the division branch
taken on `(3, 4)` whose length is nonzero. -/
theorem c9_normalize_zero_guard_witness :
    ((⟨0, 0⟩ : Vector2).length = 0 ∧ (⟨0, 0⟩ : Vector2).normalized = ⟨0, 0⟩) ∧
    ((⟨3, 4⟩ : Vector2).length ≠ 0 ∧
      (⟨3, 4⟩ : Vector2).normalized = (⟨3, 4⟩ : Vector2).divF (⟨3, 4⟩ : Vector2).length) := by
  have h0 : (⟨0, 0⟩ : Vector2).length = 0 := by
    simp [Vector2.length]
  have h34 : (⟨3, 4⟩ : Vector2).length ≠ 0 := by
    have : ((3 : ℝ) * 3 + 4 * 4) = 5 ^ 2 := by norm_num
    simp only [Vector2.length, this, Real.sqrt_sq (by norm_num : (0:ℝ) ≤ 5)]
    norm_num
  exact ⟨⟨h0, c9_normalize_zero_guard.2.2.1 _ h0⟩,
         ⟨h34, c9_normalize_zero_guard.2.2.2.2.1 _ h34⟩⟩

/-- C1: for a raw mouse-press event (any button, action = press): with GUI
capture and the pointer over the viewport, the event is forwarded to the GUI
and delivered to both the camera (whose gesture flag is latched on a left
press) and the drawing tool; with GUI capture and the pointer elsewhere, it
is forwarded to the GUI only and the camera and UI states are unchanged;
without GUI capture, it is delivered to the camera layer only and not
forwarded to the GUI. -/
theorem c1_mouse_press_routing (wantCapture : Bool) (window : Option (ℤ × ℤ))
    (button : ℤ) (x y : ℝ) (cam : Camera) (ui : UIState) :
    (wantCapture = true → ui.IsMouseOverViewport = true →
      (routeMouseButton wantCapture window button 1 x y cam ui).gui_forwarded = true ∧
      (routeMouseButton wantCapture window button 1 x y cam ui).camera =
        cam.HandleMouseButton button 1 x y ∧
      (button = 0 →
        (routeMouseButton wantCapture window button 1 x y cam ui).camera.is_rotating = true) ∧
      (routeMouseButton wantCapture window button 1 x y cam ui).ui =
        ui.HandleDrawingInput window button 1 x y) ∧
    (wantCapture = true → ui.IsMouseOverViewport = false →
      (routeMouseButton wantCapture window button 1 x y cam ui).gui_forwarded = true ∧
      (routeMouseButton wantCapture window button 1 x y cam ui).camera = cam ∧
      (routeMouseButton wantCapture window button 1 x y cam ui).ui = ui) ∧
    (wantCapture = false →
      (routeMouseButton wantCapture window button 1 x y cam ui).gui_forwarded = false ∧
      (routeMouseButton wantCapture window button 1 x y cam ui).camera =
        cam.HandleMouseButton button 1 x y ∧
      (button = 0 →
        (routeMouseButton wantCapture window button 1 x y cam ui).camera.is_rotating = true) ∧
      (routeMouseButton wantCapture window button 1 x y cam ui).ui = ui) := by
  refine ⟨fun hc hv => ?_, fun hc hv => ?_, fun hc => ?_⟩ <;>
    simp_all [routeMouseButton, UIState.IsMouseOverViewport, Camera.HandleMouseButton]

/-- C1 witness: the capture-and-over-viewport case at a concrete left press:
the GUI is forwarded to, the camera handles the event and its rotate gesture
flag is set, and the drawing tool receives the event. -/
theorem c1_mouse_press_routing_witness :
    ({ UIState.init with mouse_over_viewport := true } : UIState).IsMouseOverViewport = true ∧
    (routeMouseButton true (some (2, 2)) 0 1 1 1 Camera.init
        { UIState.init with mouse_over_viewport := true }).gui_forwarded = true ∧
    (routeMouseButton true (some (2, 2)) 0 1 1 1 Camera.init
        { UIState.init with mouse_over_viewport := true }).camera =
      Camera.init.HandleMouseButton 0 1 1 1 ∧
    (routeMouseButton true (some (2, 2)) 0 1 1 1 Camera.init
        { UIState.init with mouse_over_viewport := true }).camera.is_rotating = true ∧
    (routeMouseButton true (some (2, 2)) 0 1 1 1 Camera.init
        { UIState.init with mouse_over_viewport := true }).ui =
      ({ UIState.init with mouse_over_viewport := true } : UIState).HandleDrawingInput
        (some (2, 2)) 0 1 1 1 := by
  have h := c1_mouse_press_routing true (some (2, 2)) 0 1 1 Camera.init
    { UIState.init with mouse_over_viewport := true }
  have hv : ({ UIState.init with mouse_over_viewport := true } : UIState).IsMouseOverViewport
      = true := rfl
  obtain ⟨h1, h2, h3, h4⟩ := h.1 rfl hv
  exact ⟨hv, h1, h2, h3 rfl, h4⟩

/-- C6: in Perspective projection, with the construction-time positive zoom
speed and ordered distance limits, `Zoom(+δ)` with `δ > 0` strictly decreases
the orbit distance unless it lands on the `minDistance` clamp, and `Zoom(-δ)`
strictly increases it unless it lands on the `maxDistance` clamp. -/
theorem c6_zoom_monotone (c : Camera) (δ : ℝ)
    (hproj : c.projection = CameraProjection.Perspective)
    (hδ : 0 < δ) (hd : 0 < c.orbit_distance) (hz : 0 < c.zoom_speed)
    (hmm : c.min_orbit_distance ≤ c.max_orbit_distance) :
    ((c.Zoom δ).orbit_distance < c.orbit_distance ∨
      (c.Zoom δ).orbit_distance = c.min_orbit_distance) ∧
    (c.orbit_distance < (c.Zoom (-δ)).orbit_distance ∨
      (c.Zoom (-δ)).orbit_distance = c.max_orbit_distance) := by
  have hfac : c.orbit_distance * (1 - δ * c.zoom_speed) < c.orbit_distance := by
    nlinarith [mul_pos (mul_pos hd hδ) hz]
  have hfac' : c.orbit_distance < c.orbit_distance * (1 - -δ * c.zoom_speed) := by
    nlinarith [mul_pos (mul_pos hd hδ) hz]
  constructor
  · simp only [Camera.Zoom, hproj, if_pos, Camera.update_orbit_position]
    rcases lt_or_le c.min_orbit_distance c.orbit_distance with hlt | hle
    · exact Or.inl (max_lt hlt (lt_of_le_of_lt (min_le_right _ _) hfac))
    · right
      have : min c.max_orbit_distance (c.orbit_distance * (1 - δ * c.zoom_speed)) ≤
          c.min_orbit_distance :=
        le_trans (min_le_right _ _) (le_trans hfac.le hle)
      exact max_eq_left this
  · simp only [Camera.Zoom, hproj, if_pos, Camera.update_orbit_position]
    rcases lt_or_le c.orbit_distance c.max_orbit_distance with hlt | hle
    · exact Or.inl (lt_of_lt_of_le (lt_min hlt hfac') (le_max_right _ _))
    · right
      have h1 : min c.max_orbit_distance (c.orbit_distance * (1 - -δ * c.zoom_speed)) =
          c.max_orbit_distance :=
        min_eq_left (le_trans (le_trans hle hfac'.le) le_rfl)
      rw [h1]
      exact max_eq_right hmm

/-- C6 witness: the default camera zoomed by `δ = 1` in both directions. -/
theorem c6_zoom_monotone_witness :
    Camera.init.projection = CameraProjection.Perspective ∧
    (0 : ℝ) < 1 ∧ 0 < Camera.init.orbit_distance ∧ 0 < Camera.init.zoom_speed ∧
    Camera.init.min_orbit_distance ≤ Camera.init.max_orbit_distance ∧
    (((Camera.init.Zoom 1).orbit_distance < Camera.init.orbit_distance ∨
       (Camera.init.Zoom 1).orbit_distance = Camera.init.min_orbit_distance) ∧
     (Camera.init.orbit_distance < (Camera.init.Zoom (-1)).orbit_distance ∨
       (Camera.init.Zoom (-1)).orbit_distance = Camera.init.max_orbit_distance)) := by
  refine ⟨rfl, by norm_num, ?_, ?_, ?_, ?_⟩
  · show (0 : ℝ) < 5
    norm_num
  · show (0 : ℝ) < 0.1
    norm_num
  · show (0.1 : ℝ) ≤ 1000
    norm_num
  · exact c6_zoom_monotone Camera.init 1 rfl (by norm_num)
      (by show (0 : ℝ) < 5; norm_num) (by show (0 : ℝ) < 0.1; norm_num)
      (by show (0.1 : ℝ) ≤ 1000; norm_num)

/-- C8 counterexample: with the freshly constructed interface (no tool
active), `MoveAlongAxes(100, 0)` on the default camera still moves the
camera position — `MoveAlongAxes` has no tool or window-size guard. -/
theorem c8_move_along_axes_not_noop :
    UIState.init.current_tool = ToolType.None ∧
    (Camera.init.MoveAlongAxes 100 0).position ≠ Camera.init.position := by
  have hpos : Camera.init.position = ⟨5, 0, 0⟩ := by
    show (⟨(0 : ℝ) + 5 * Real.cos 0 * Real.cos 0, (0 : ℝ) + 5 * Real.sin 0,
          (0 : ℝ) + 5 * Real.cos 0 * Real.sin 0⟩ : Vector3) = ⟨5, 0, 0⟩
    norm_num [Real.cos_zero, Real.sin_zero]
  have htgt : Camera.init.target = ⟨0, 0, 0⟩ := rfl
  have hup : Camera.init.up = ⟨0, 1, 0⟩ := rfl
  have hfwd : Camera.init.GetForward = ⟨-1, 0, 0⟩ := by
    rw [Camera.GetForward, htgt, hpos]
    have hsub : Vector3.sub ⟨0, 0, 0⟩ ⟨5, 0, 0⟩ = ⟨-5, 0, 0⟩ := by
      simp [Vector3.sub]
    rw [hsub]
    have hlen : (⟨-5, 0, 0⟩ : Vector3).length = 5 := by
      simp only [Vector3.length]
      rw [show ((-5 : ℝ) * -5 + 0 * 0 + 0 * 0) = 5 ^ 2 by norm_num]
      exact Real.sqrt_sq (by norm_num)
    rw [Vector3.normalized, hlen]
    norm_num [Vector3.divF]
  have hright : Camera.init.GetRight = ⟨0, 0, -1⟩ := by
    rw [Camera.GetRight, hfwd, hup]
    have hcross : Vector3.cross ⟨-1, 0, 0⟩ ⟨0, 1, 0⟩ = ⟨0, 0, -1⟩ := by
      simp [Vector3.cross]
    rw [hcross]
    have hlen : (⟨0, 0, -1⟩ : Vector3).length = 1 := by
      simp only [Vector3.length]
      rw [show ((0 : ℝ) * 0 + 0 * 0 + -1 * -1) = 1 ^ 2 by norm_num]
      exact Real.sqrt_sq (by norm_num)
    rw [Vector3.normalized, hlen]
    norm_num [Vector3.divF]
  refine ⟨rfl, ?_⟩
  have hmove : (Camera.init.MoveAlongAxes 100 0).position = ⟨5, 0, -1⟩ := by
    simp only [Camera.MoveAlongAxes, hright, hfwd, hpos]
    show Vector3.add (Vector3.add ⟨5, 0, 0⟩ _) _ = _
    simp only [Camera.GetUp, hup, Vector3.smul, Vector3.add]
    show (⟨5 + ((0 * 100 + 0 * 0) * (Camera.init.pan_speed.x * 0.01)) +
            -1 * (0 * (Camera.init.pan_speed.z * 0.005)), _, _⟩ : Vector3) = _
    have hps : Camera.init.pan_speed = ⟨1, 1, 1⟩ := rfl
    rw [hps]
    norm_num
  rw [hmove, hpos]
  intro h
  have := congrArg Vector3.z h
  norm_num at this

/-- C8 (amended): `HandleDrawingMouseMove` is a no-op — the whole drawing
state is unchanged and no fault is raised — whenever no tool is active, no
drawing is in progress, no window is available, or the window size is not
positive; `MoveAlongAxes` raises no fault either but has no such guard: it
always translates `position` and `target` by its pan delta, whatever the
tool state. -/
theorem c8_noop_guards (s : UIState) (window : Option (ℤ × ℤ)) (x y : ℝ) :
    (s.current_tool = ToolType.None → s.HandleDrawingMouseMove window x y = s) ∧
    (s.is_drawing = false → s.HandleDrawingMouseMove window x y = s) ∧
    (∀ w h : ℤ, window = some (w, h) → ¬(0 < w ∧ 0 < h) →
      s.HandleDrawingMouseMove window x y = s) ∧
    (window = none → s.HandleDrawingMouseMove window x y = s) ∧
    (∀ (c : Camera) (dx dy : ℝ),
      c.MoveAlongAxes dx dy =
        { c with
          position := (c.position.add
              (((c.GetRight.smul dx).add (c.GetUp.smul dy)).smul
                (c.pan_speed.x * 0.01))).add
            (c.GetForward.smul (dy * (c.pan_speed.z * 0.005)))
          target := (c.target.add
              (((c.GetRight.smul dx).add (c.GetUp.smul dy)).smul
                (c.pan_speed.x * 0.01))).add
            (c.GetForward.smul (dy * (c.pan_speed.z * 0.005))) }) := by
  refine ⟨fun h => ?_, fun h => ?_, fun w h hw hwh => ?_, fun h => ?_,
    fun c dx dy => rfl⟩ <;>
    simp_all [UIState.HandleDrawingMouseMove]

/-- C8 witness: the guard taken on the freshly constructed interface (tool
`None`): a mouse move changes nothing. -/
theorem c8_noop_guards_witness :
    UIState.init.current_tool = ToolType.None ∧
    UIState.init.HandleDrawingMouseMove (some (2, 2)) 1 1 = UIState.init :=
  ⟨rfl, (c8_noop_guards UIState.init (some (2, 2)) 1 1).1 rfl⟩

/-- The Line tool is not the `None` tool (used to reduce the drawing-input
guard). -/
theorem tool_line_ne_none : ToolType.Line ≠ ToolType.None := by decide

/-- C2 counterexample: window `2×2`, Line tool, press at pixel `(0, 0)`
(normalized `(-1, 1)`), release at pixel `(1, 1)` (normalized `(0, 0)`): the
committed segment is NOT the pair of conversions of the two pixel points —
the release handler never reads its coordinates, so both endpoints are the
press point's conversion. -/
theorem c2_release_coords_ignored :
    ((({ UIState.init with current_tool := ToolType.Line } : UIState).HandleDrawingInput
        (some (2, 2)) 0 1 0 0).HandleDrawingInput (some (2, 2)) 0 0 1 1).line_points ≠
      ({ UIState.init with current_tool := ToolType.Line } : UIState).line_points ++
        [⟨0 / (2 : ℝ) * 2 - 1, 1 - 0 / (2 : ℝ) * 2⟩,
         ⟨1 / (2 : ℝ) * 2 - 1, 1 - 1 / (2 : ℝ) * 2⟩] := by
  have h2 : ((({ UIState.init with current_tool := ToolType.Line } : UIState).HandleDrawingInput
      (some (2, 2)) 0 1 0 0).HandleDrawingInput (some (2, 2)) 0 0 1 1).line_points =
      [⟨-0.5, -0.5⟩, ⟨0.5, 0.5⟩,
       ⟨0 / ((2 : ℤ) : ℝ) * 2 - 1, 1 - 0 / ((2 : ℤ) : ℝ) * 2⟩,
       ⟨0 / ((2 : ℤ) : ℝ) * 2 - 1, 1 - 0 / ((2 : ℤ) : ℝ) * 2⟩] := rfl
  rw [h2]
  norm_num [UIState.init, Vector2.mk.injEq]

/-- C2 (amended): window `(W, H)` with `W, H > 0`, Line tool: a left press at
pixel `(px, py)`, a mouse move to `(mx, my)`, then a left release (whose own
coordinates are ignored) append exactly one segment, from the normalized
conversion of `(px, py)` to the normalized conversion of `(mx, my)`; without
the intervening move both endpoints are the press point's conversion.  A
subsequent `ClearAll()` empties the committed list. -/
theorem c2_line_tool_roundtrip (W H : ℤ) (px py mx my rx ry : ℝ) (s : UIState)
    (hW : 0 < W) (hH : 0 < H) (htool : s.current_tool = ToolType.Line) :
    (((s.HandleDrawingInput (some (W, H)) 0 1 px py).HandleDrawingMouseMove
        (some (W, H)) mx my).HandleDrawingInput (some (W, H)) 0 0 rx ry).line_points =
      s.line_points ++ [⟨px / (W : ℝ) * 2 - 1, 1 - py / (H : ℝ) * 2⟩,
                        ⟨mx / (W : ℝ) * 2 - 1, 1 - my / (H : ℝ) * 2⟩] ∧
    ((((s.HandleDrawingInput (some (W, H)) 0 1 px py).HandleDrawingMouseMove
        (some (W, H)) mx my).HandleDrawingInput (some (W, H)) 0 0 rx ry).ClearAll).line_points
      = [] ∧
    ((s.HandleDrawingInput (some (W, H)) 0 1 px py).HandleDrawingInput
        (some (W, H)) 0 0 rx ry).line_points =
      s.line_points ++ [⟨px / (W : ℝ) * 2 - 1, 1 - py / (H : ℝ) * 2⟩,
                        ⟨px / (W : ℝ) * 2 - 1, 1 - py / (H : ℝ) * 2⟩] := by
  refine ⟨?_, ?_, ?_⟩ <;>
    simp [UIState.HandleDrawingInput, UIState.HandleDrawingMouseMove, UIState.ClearAll,
      htool, hW, hH, tool_line_ne_none]

/-- C2 witness: the amended round trip on the fresh interface with the Line
tool, window `2×2`, press `(0,0)`, move `(1,1)`, release `(1,1)`. -/
theorem c2_line_tool_roundtrip_witness :
    (0 : ℤ) < 2 ∧
    ({ UIState.init with current_tool := ToolType.Line } : UIState).current_tool
      = ToolType.Line ∧
    (((({ UIState.init with current_tool := ToolType.Line } : UIState).HandleDrawingInput
        (some (2, 2)) 0 1 0 0).HandleDrawingMouseMove (some (2, 2)) 1 1).HandleDrawingInput
        (some (2, 2)) 0 0 1 1).line_points =
      ({ UIState.init with current_tool := ToolType.Line } : UIState).line_points ++
        [⟨0 / (2 : ℝ) * 2 - 1, 1 - 0 / (2 : ℝ) * 2⟩,
         ⟨1 / (2 : ℝ) * 2 - 1, 1 - 1 / (2 : ℝ) * 2⟩] := by
  refine ⟨by norm_num, rfl, ?_⟩
  exact (c2_line_tool_roundtrip 2 2 0 0 1 1 1 1
    { UIState.init with current_tool := ToolType.Line }
    (by norm_num) (by norm_num) rfl).1

/-- C4 counterexample: `SetPosition` at the current target (a reachable
public-operation call on the default camera) stores orbit distance
`|pos - target| = 0`, strictly below `minDistance = 0.1` — so the orbit
invariant does not survive `SetPosition`. -/
theorem c4_set_position_breaks_invariant :
    (Camera.init.SetPosition ⟨0, 0, 0⟩).orbit_distance <
      (Camera.init.SetPosition ⟨0, 0, 0⟩).min_orbit_distance := by
  have h1 : (Camera.init.SetPosition ⟨0, 0, 0⟩).orbit_distance = 0 := by
    show Vector3.length (Vector3.sub ⟨0, 0, 0⟩ ⟨0, 0, 0⟩) = 0
    simp [Vector3.length, Vector3.sub]
  have h2 : (Camera.init.SetPosition ⟨0, 0, 0⟩).min_orbit_distance = 0.1 := rfl
  rw [h1, h2]
  norm_num

/-- C4 (amended): the orbit bounds do hold after every operation that routes
through the clamp helpers — `SetOrbitDistance` and (in Perspective) `Zoom`
re-clamp the distance to at least `minDistance`, and `SetOrbitAngles` and
`Orbit` clamp `angleY` to ±89° in radians — but `SetPosition` (and
`FitToBounds`) recompute the orbit triple without these clamps, so the
invariant can be violated by them. -/
theorem c4_clamped_ops_keep_orbit_bounds :
    (∀ (c : Camera) (d : ℝ),
      c.min_orbit_distance ≤ (c.SetOrbitDistance d).orbit_distance) ∧
    (∀ (c : Camera) (ax ay : ℝ),
      |(c.SetOrbitAngles ax ay).orbit_angle_y| ≤ radians 89) ∧
    (∀ (c : Camera) (dx dy : ℝ),
      |(c.Orbit dx dy).orbit_angle_y| ≤ radians 89) ∧
    (∀ (c : Camera) (δ : ℝ), c.projection = CameraProjection.Perspective →
      c.min_orbit_distance ≤ (c.Zoom δ).orbit_distance) := by
  have hr : (0 : ℝ) ≤ radians 89 := by
    unfold radians
    positivity
  have habs : ∀ v : ℝ, |max (-(radians 89)) (min (radians 89) v)| ≤ radians 89 := by
    intro v
    rw [abs_le]
    exact ⟨le_max_left _ _, max_le (neg_le_self hr) (min_le_left _ _)⟩
  refine ⟨fun c d => le_max_left _ _, fun c ax ay => habs ay, fun c dx dy => habs _,
    fun c δ hproj => ?_⟩
  simp only [Camera.Zoom, hproj, if_pos, Camera.update_orbit_position]
  exact le_max_left _ _

/-- C4 witness: the clamps exercised on the default camera — a distance
request of `0` is clamped up to `minDistance`, an angle request of `10`
radians is clamped into ±89°, and a Perspective zoom keeps the lower
bound. -/
theorem c4_clamped_ops_keep_orbit_bounds_witness :
    Camera.init.min_orbit_distance ≤ (Camera.init.SetOrbitDistance 0).orbit_distance ∧
    |(Camera.init.SetOrbitAngles 0 10).orbit_angle_y| ≤ radians 89 ∧
    Camera.init.projection = CameraProjection.Perspective ∧
    Camera.init.min_orbit_distance ≤ (Camera.init.Zoom 0).orbit_distance :=
  ⟨c4_clamped_ops_keep_orbit_bounds.1 Camera.init 0,
   c4_clamped_ops_keep_orbit_bounds.2.1 Camera.init 0 10,
   rfl,
   c4_clamped_ops_keep_orbit_bounds.2.2.2 Camera.init 0 rfl⟩

/-- `atan2` is invariant under scaling both arguments by a positive factor. -/
theorem atan2_mul_left (k y x : ℝ) (hk : 0 < k) :
    atan2 (k * y) (k * x) = atan2 y x := by
  have hneg : (k * x < 0) ↔ (x < 0) := by
    rw [← not_le, ← not_le, mul_nonneg_iff_of_pos_left hk]
  have hneg' : (k * y < 0) ↔ (y < 0) := by
    rw [← not_le, ← not_le, mul_nonneg_iff_of_pos_left hk]
  unfold atan2
  rw [mul_div_mul_left y x hk.ne']
  simp only [mul_pos_iff_of_pos_left hk, mul_nonneg_iff_of_pos_left hk, hneg, hneg']

/-- `atan2` inverts the unit-circle parametrization on the principal range
`(-π, π]`. -/
theorem atan2_sin_cos (θ : ℝ) (hθ : θ ∈ Set.Ioc (-π) π) :
    atan2 (Real.sin θ) (Real.cos θ) = θ := by
  obtain ⟨hl, hr⟩ := hθ
  have hπ := Real.pi_pos
  unfold atan2
  rcases lt_trichotomy 0 (Real.cos θ) with hc | hc | hc
  · -- cos θ > 0: θ ∈ (-π/2, π/2), plain arctan
    have h1 : -(π / 2) < θ := by
      by_contra h
      push_neg at h
      have h2 : Real.cos (-θ) ≤ 0 :=
        Real.cos_nonpos_of_pi_div_two_le_of_le (by linarith) (by linarith)
      rw [Real.cos_neg] at h2
      linarith
    have h2 : θ < π / 2 := by
      by_contra h
      push_neg at h
      have h3 : Real.cos θ ≤ 0 :=
        Real.cos_nonpos_of_pi_div_two_le_of_le h (by linarith)
      linarith
    rw [if_pos hc, ← Real.tan_eq_sin_div_cos]
    exact Real.arctan_tan h1 h2
  · -- cos θ = 0: θ = π/2 or θ = -π/2
    rw [if_neg (by rw [← hc]; exact lt_irrefl 0),
        if_neg (by rw [← hc]; exact lt_irrefl 0)]
    obtain ⟨k, hk⟩ := Real.cos_eq_zero_iff.mp hc.symm
    have hkr : ((2 * k + 1 : ℤ) : ℝ) * π / 2 = θ := by
      push_cast
      linarith [hk]
    have hk1 : (-2 : ℝ) < ((2 * k + 1 : ℤ) : ℝ) := by nlinarith
    have hk2 : ((2 * k + 1 : ℤ) : ℝ) ≤ 2 := by nlinarith
    have hk1' : (-2 : ℤ) < 2 * k + 1 := by exact_mod_cast hk1
    have hk2' : (2 * k + 1 : ℤ) ≤ 2 := by exact_mod_cast hk2
    have hk0 : k = 0 ∨ k = -1 := by omega
    rcases hk0 with h0 | h0
    · have hθ2 : θ = π / 2 := by
        rw [← hkr, h0]
        push_cast
        ring
      rw [hθ2, Real.sin_pi_div_two]
      rw [if_pos one_pos]
    · have hθ2 : θ = -(π / 2) := by
        rw [← hkr, h0]
        push_cast
        ring
      rw [hθ2, Real.sin_neg, Real.sin_pi_div_two]
      rw [if_neg (by norm_num), if_pos (by norm_num)]
  · -- cos θ < 0: θ ∈ (π/2, π] or θ ∈ (-π, -π/2)
    rw [if_neg (asymm hc), if_pos hc, ← Real.tan_eq_sin_div_cos]
    rcases le_or_lt 0 (Real.sin θ) with hs | hs
    · -- sin θ ≥ 0: θ ∈ (π/2, π], branch arctan + π
      have h1 : π / 2 < θ := by
        by_contra h
        push_neg at h
        rcases le_or_lt θ (-(π / 2)) with h2 | h2
        · have h3 : Real.sin θ < 0 :=
            Real.sin_neg_of_neg_of_neg_pi_lt (by linarith) hl
          linarith
        · have h3 : 0 ≤ Real.cos θ :=
            Real.cos_nonneg_of_mem_Icc ⟨by linarith, h⟩
          linarith
      have htan : Real.tan (θ - π) = Real.tan θ := Real.tan_periodic.sub_eq θ
      rw [if_pos hs, ← htan, Real.arctan_tan (by linarith) (by linarith)]
      ring
    · -- sin θ < 0: θ ∈ (-π, -π/2), branch arctan - π
      have h1 : θ < -(π / 2) := by
        by_contra h
        push_neg at h
        rcases le_or_lt θ (π / 2) with h2 | h2
        · have h3 : 0 ≤ Real.cos θ := Real.cos_nonneg_of_mem_Icc ⟨h, h2⟩
          linarith
        · have h3 : 0 ≤ Real.sin θ :=
            Real.sin_nonneg_of_nonneg_of_le_pi (by linarith) hr
          linarith
      have htan : Real.tan (θ + π) = Real.tan θ := Real.tan_periodic θ
      rw [if_neg (not_le.mpr hs), ← htan,
          Real.arctan_tan (by linarith) (by linarith)]
      ring

/-- C5 counterexample: after `SetPosition(target)` the stored orbit distance
is `0`; `SetOrbitAngles(0, 0)` then leaves the camera at distance `0` from
the target, not at `clamp(0, minDistance, maxDistance) = 0.1` —
`SetOrbitAngles` does not clamp the distance. -/
theorem c5_distance_not_clamped :
    (((Camera.init.SetPosition ⟨0, 0, 0⟩).SetOrbitAngles 0 0).position.sub
        ((Camera.init.SetPosition ⟨0, 0, 0⟩).SetOrbitAngles 0 0).target).length ≠
      max (Camera.init.SetPosition ⟨0, 0, 0⟩).min_orbit_distance
        (min (Camera.init.SetPosition ⟨0, 0, 0⟩).max_orbit_distance
          (Camera.init.SetPosition ⟨0, 0, 0⟩).orbit_distance) := by
  have hd : (Camera.init.SetPosition ⟨0, 0, 0⟩).orbit_distance = 0 := by
    show Vector3.length (Vector3.sub ⟨0, 0, 0⟩ ⟨0, 0, 0⟩) = 0
    simp [Vector3.length, Vector3.sub]
  have hvec : ((Camera.init.SetPosition ⟨0, 0, 0⟩).SetOrbitAngles 0 0).position.sub
      ((Camera.init.SetPosition ⟨0, 0, 0⟩).SetOrbitAngles 0 0).target =
      ⟨(Camera.init.SetPosition ⟨0, 0, 0⟩).orbit_distance *
          Real.cos (max (-(radians 89)) (min (radians 89) 0)) * Real.cos 0,
        (Camera.init.SetPosition ⟨0, 0, 0⟩).orbit_distance *
          Real.sin (max (-(radians 89)) (min (radians 89) 0)),
        (Camera.init.SetPosition ⟨0, 0, 0⟩).orbit_distance *
          Real.cos (max (-(radians 89)) (min (radians 89) 0)) * Real.sin 0⟩ := by
    have htp : (Camera.init.SetPosition ⟨0, 0, 0⟩).target = ⟨0, 0, 0⟩ := rfl
    simp [Camera.SetOrbitAngles, Camera.constrain_orbit_angles,
      Camera.update_orbit_position, Vector3.sub, htp]
  rw [hvec, hd]
  have hlen : Vector3.length ⟨0 * Real.cos (max (-(radians 89)) (min (radians 89) 0)) *
      Real.cos 0, 0 * Real.sin (max (-(radians 89)) (min (radians 89) 0)),
      0 * Real.cos (max (-(radians 89)) (min (radians 89) 0)) * Real.sin 0⟩ = 0 := by
    simp [Vector3.length]
  rw [hlen]
  have hmin : (Camera.init.SetPosition ⟨0, 0, 0⟩).min_orbit_distance = 0.1 := rfl
  have hmax : (Camera.init.SetPosition ⟨0, 0, 0⟩).max_orbit_distance = 1000 := rfl
  rw [hmin, hmax]
  norm_num

/-- C5 (amended): for any camera with a positive stored orbit distance and
any azimuth in the principal range `(-π, π]`, after `SetOrbitAngles(ax, ay)`
the distance `|position - target|` equals the stored (unclamped) orbit
distance — which `SetOrbitAngles` leaves untouched, so it equals
`clamp(distance, min, max)` only when the distance is already within the
limits — and inverting the orbit formula on the resulting position
reproduces the clamped elevation `clamp(ay, ±89°)` exactly and the azimuth
`ax` exactly. -/
theorem c5_orbit_angles_roundtrip (c : Camera) (ax ay : ℝ)
    (hd : 0 < c.orbit_distance) (hax : ax ∈ Set.Ioc (-π) π) :
    ((c.SetOrbitAngles ax ay).position.sub (c.SetOrbitAngles ax ay).target).length
      = c.orbit_distance ∧
    (c.SetOrbitAngles ax ay).orbit_distance = c.orbit_distance ∧
    Real.arcsin (((c.SetOrbitAngles ax ay).position.sub
        (c.SetOrbitAngles ax ay).target).normalized.y)
      = max (-(radians 89)) (min (radians 89) ay) ∧
    atan2 (((c.SetOrbitAngles ax ay).position.sub
        (c.SetOrbitAngles ax ay).target).normalized.z)
      (((c.SetOrbitAngles ax ay).position.sub
        (c.SetOrbitAngles ax ay).target).normalized.x)
      = ax := by
  have hπ := Real.pi_pos
  have hr0 : (0 : ℝ) ≤ radians 89 := by
    unfold radians
    positivity
  have h89 : radians 89 < π / 2 := by
    unfold radians
    nlinarith
  have hcy1 : -(π / 2) < max (-(radians 89)) (min (radians 89) ay) :=
    lt_of_lt_of_le (by linarith) (le_max_left _ _)
  have hcy2 : max (-(radians 89)) (min (radians 89) ay) < π / 2 :=
    lt_of_le_of_lt (max_le (by linarith) (min_le_left _ _)) h89
  have hcos : 0 < Real.cos (max (-(radians 89)) (min (radians 89) ay)) :=
    Real.cos_pos_of_mem_Ioo ⟨hcy1, hcy2⟩
  have hvec : (c.SetOrbitAngles ax ay).position.sub (c.SetOrbitAngles ax ay).target =
      ⟨c.orbit_distance * Real.cos (max (-(radians 89)) (min (radians 89) ay)) *
          Real.cos ax,
        c.orbit_distance * Real.sin (max (-(radians 89)) (min (radians 89) ay)),
        c.orbit_distance * Real.cos (max (-(radians 89)) (min (radians 89) ay)) *
          Real.sin ax⟩ := by
    simp [Camera.SetOrbitAngles, Camera.constrain_orbit_angles,
      Camera.update_orbit_position, Vector3.sub]
  have hlen : Vector3.length
      ⟨c.orbit_distance * Real.cos (max (-(radians 89)) (min (radians 89) ay)) *
          Real.cos ax,
        c.orbit_distance * Real.sin (max (-(radians 89)) (min (radians 89) ay)),
        c.orbit_distance * Real.cos (max (-(radians 89)) (min (radians 89) ay)) *
          Real.sin ax⟩ = c.orbit_distance := by
    simp only [Vector3.length]
    rw [show c.orbit_distance * Real.cos (max (-(radians 89)) (min (radians 89) ay)) *
          Real.cos ax *
          (c.orbit_distance * Real.cos (max (-(radians 89)) (min (radians 89) ay)) *
            Real.cos ax) +
        c.orbit_distance * Real.sin (max (-(radians 89)) (min (radians 89) ay)) *
          (c.orbit_distance * Real.sin (max (-(radians 89)) (min (radians 89) ay))) +
        c.orbit_distance * Real.cos (max (-(radians 89)) (min (radians 89) ay)) *
          Real.sin ax *
          (c.orbit_distance * Real.cos (max (-(radians 89)) (min (radians 89) ay)) *
            Real.sin ax) = c.orbit_distance ^ 2 from by
      linear_combination
        (c.orbit_distance ^ 2 *
            Real.cos (max (-(radians 89)) (min (radians 89) ay)) ^ 2) *
          Real.sin_sq_add_cos_sq ax +
        c.orbit_distance ^ 2 *
          Real.sin_sq_add_cos_sq (max (-(radians 89)) (min (radians 89) ay))]
    exact Real.sqrt_sq hd.le
  have hnorm : (⟨c.orbit_distance *
        Real.cos (max (-(radians 89)) (min (radians 89) ay)) * Real.cos ax,
      c.orbit_distance * Real.sin (max (-(radians 89)) (min (radians 89) ay)),
      c.orbit_distance * Real.cos (max (-(radians 89)) (min (radians 89) ay)) *
        Real.sin ax⟩ : Vector3).normalized =
      ⟨Real.cos (max (-(radians 89)) (min (radians 89) ay)) * Real.cos ax,
        Real.sin (max (-(radians 89)) (min (radians 89) ay)),
        Real.cos (max (-(radians 89)) (min (radians 89) ay)) * Real.sin ax⟩ := by
    rw [Vector3.normalized, hlen, if_neg hd.ne']
    simp only [Vector3.divF, Vector3.mk.injEq]
    refine ⟨?_, ?_, ?_⟩ <;> field_simp <;> ring
  refine ⟨by rw [hvec, hlen], rfl, ?_, ?_⟩
  · rw [hvec, hnorm]
    exact Real.arcsin_sin hcy1.le hcy2.le
  · rw [hvec, hnorm]
    show atan2 (Real.cos (max (-(radians 89)) (min (radians 89) ay)) * Real.sin ax)
      (Real.cos (max (-(radians 89)) (min (radians 89) ay)) * Real.cos ax) = ax
    rw [atan2_mul_left _ _ _ hcos]
    exact atan2_sin_cos ax hax

/-- C5 witness: the round trip on the default camera (distance 5) with
angles `(0, 0)`. -/
theorem c5_orbit_angles_roundtrip_witness :
    0 < Camera.init.orbit_distance ∧ (0 : ℝ) ∈ Set.Ioc (-π) π ∧
    (((Camera.init.SetOrbitAngles 0 0).position.sub
        (Camera.init.SetOrbitAngles 0 0).target).length = Camera.init.orbit_distance ∧
      (Camera.init.SetOrbitAngles 0 0).orbit_distance = Camera.init.orbit_distance ∧
      Real.arcsin (((Camera.init.SetOrbitAngles 0 0).position.sub
          (Camera.init.SetOrbitAngles 0 0).target).normalized.y)
        = max (-(radians 89)) (min (radians 89) 0) ∧
      atan2 (((Camera.init.SetOrbitAngles 0 0).position.sub
          (Camera.init.SetOrbitAngles 0 0).target).normalized.z)
        (((Camera.init.SetOrbitAngles 0 0).position.sub
          (Camera.init.SetOrbitAngles 0 0).target).normalized.x)
        = 0) := by
  have h1 : 0 < Camera.init.orbit_distance := by
    show (0 : ℝ) < 5
    norm_num
  have h2 : (0 : ℝ) ∈ Set.Ioc (-π) π :=
    ⟨by linarith [Real.pi_pos], Real.pi_pos.le⟩
  exact ⟨h1, h2, c5_orbit_angles_roundtrip Camera.init 0 0 h1 h2⟩

end MentalEngine
